import Mathlib

/-!
Verification development for the Clinical-Trial-SearchEngine repository.

We give a shallow embedding of the core retrieval-and-ranking pipeline:
the criteria parser (backend/nlp/criteria_parser.py), the feasibility
scorer (backend/nlp/feasibility_scorer.py) and the fusion / rerank
helpers of the API layer (backend/api/main.py), and prove the spec's
testable properties about the embedded definitions.

The parser is regex based, so we first implement a small backtracking
regex engine whose semantics follow the Python re module on the
pattern shapes the parser uses: leftmost match, ordered alternation,
greedy and lazy quantifiers over character classes with backtracking,
word boundaries, and numbered capture groups.  Machine floats of the
source are modelled as rationals, Python ints as Int/Nat, dicts as
association lists in insertion order, and sets as lists where only
membership matters (comments note each such choice).
-/

namespace CTSE

/-- ASCII lower-casing of a string; models Python str.lower on the
ASCII texts handled by the parser. -/
def strLower (s : String) : String := ⟨s.data.map Char.toLower⟩

/-- ASCII upper-casing; models Python str.upper. -/
def strUpper (s : String) : String := ⟨s.data.map Char.toUpper⟩

/-- Python str.capitalize: first character upper-cased, the rest lower-cased. -/
def pyCapitalize (s : String) : String :=
  match s.data with
  | [] => ""
  | c :: cs => ⟨Char.toUpper c :: cs.map Char.toLower⟩

/-- Decimal digit class, the regex \d (ASCII). -/
def isDigitChar (c : Char) : Bool := ('0' ≤ c) && (c ≤ '9')

/-- Whitespace class, the regex \s (ASCII part). -/
def isSpaceChar (c : Char) : Bool :=
  (c = ' ') || (c = '\t') || (c = '\n') || (c = '\r') || (c = '\x0b') || (c = '\x0c')

/-- Word-character class, the regex \w, on the ASCII texts used here. -/
def isWordChar (c : Char) : Bool := c.isAlphanum || (c = '_')

/-- The regex dot: any character except a newline (re.DOTALL is not used). -/
def isAnyChar (c : Char) : Bool := !(c = '\n')

/-- Is the needle a prefix of the haystack? -/
def listStarts : List Char → List Char → Bool
  | [], _ => true
  | _ :: _, [] => false
  | c :: cs, d :: ds => (c = d) && listStarts cs ds

/-- Does the needle occur as a contiguous substring of the haystack?
Models the Python `in` operator on strings, including that an empty
needle always occurs. -/
def listHasSub (hay needle : List Char) : Bool :=
  match hay with
  | [] => listStarts needle []
  | _ :: rest => listStarts needle hay || listHasSub rest needle

/-- String version of listHasSub: Python `needle in hay`. -/
def strHasSub (hay needle : String) : Bool := listHasSub hay.data needle.data

/-- Does the string end with the given suffix?  Models Python
str.endswith / Lean endsWith, recomputed structurally so that concrete
instances reduce in the kernel. -/
def strEnds (s suffix : String) : Bool :=
  listStarts suffix.data.reverse s.data.reverse

/-- Python str.strip: remove leading and trailing whitespace. -/
def pyStrip (s : String) : String :=
  ⟨((s.data.dropWhile isSpaceChar).reverse.dropWhile isSpaceChar).reverse⟩

/-- Value of a list of decimal digit characters; models Python int() on
the all-digit capture groups produced by the patterns below. -/
def natOfDigits (l : List Char) : Nat :=
  l.foldl (fun acc c => acc * 10 + (c.toNat - 48)) 0

/-- Value of a capture of shape digits(.digits)?; models Python float()
on such a capture, exactly, as a rational. -/
def ratOfNumChars (l : List Char) : ℚ :=
  match l.splitOn '.' with
  | [ip] => (natOfDigits ip : ℚ)
  | [ip, fp] => (natOfDigits ip : ℚ) + (natOfDigits fp : ℚ) / ((10 : ℚ) ^ fp.length)
  | _ => 0

/-! ### A small backtracking regex engine

Pattern shapes are restricted to what criteria_parser.py and
feasibility_scorer.py use: literals, character classes, ordered
alternation, optional groups, greedy/lazy counted repetition of a
character class, numbered capture groups and word boundaries.  The
matcher is continuation-passing; alternatives are tried left to right,
greedy repetition longest first and lazy repetition shortest first,
exactly the Python re backtracking order. -/

inductive RE where
  | lit (s : List Char)
  | cls (p : Char → Bool)
  | seq (a b : RE)
  | alt (a b : RE)
  | opt (a : RE)
  | rep (p : Char → Bool) (lo : Nat) (hi : Option Nat) (lzy : Bool)
  | grp (n : Nat) (a : RE)
  | wordB

/-- Capture environment: group number to matched span, most recent first. -/
abbrev Caps := List (Nat × List Char)

/-- First successful application of f over a list. -/
def firstSome {α β : Type} (f : α → Option β) : List α → Option β
  | [] => none
  | a :: as' =>
    match f a with
    | some b => some b
    | none => firstSome f as'

/-- Match a literal, returning the rest of the input. -/
def litDrop : List Char → List Char → Option (List Char)
  | [], s => some s
  | _ :: _, [] => none
  | c :: cs, d :: ds => if c = d then litDrop cs ds else none

/-- Length of the maximal prefix satisfying p. -/
def runLen (p : Char → Bool) : List Char → Nat
  | [] => 0
  | c :: cs => if p c then runLen p cs + 1 else 0

/-- Last character of a consumed span, else the previous character:
tracks the left context for word boundaries. -/
def lastOr (l : List Char) (pc : Option Char) : Option Char :=
  match l.getLast? with
  | some c => some c
  | none => pc

/-- The backtracking matcher.  mrun r pc s caps k attempts to match r at
the start of s (pc is the character just before s, for word
boundaries), extending caps, and calls the continuation k with the
left context, remaining input and captures of each candidate match,
in Python re backtracking order; the first success wins. -/
def mrun : RE → Option Char → List Char → Caps →
    (Option Char → List Char → Caps → Option Caps) → Option Caps
  | .lit l, pc, s, caps, k =>
    match litDrop l s with
    | some rest => k (lastOr l pc) rest caps
    | none => none
  | .cls p, _, s, caps, k =>
    match s with
    | [] => none
    | c :: rest => if p c then k (some c) rest caps else none
  | .seq a b, pc, s, caps, k =>
    mrun a pc s caps (fun pc' s' caps' => mrun b pc' s' caps' k)
  | .alt a b, pc, s, caps, k =>
    match mrun a pc s caps k with
    | some r => some r
    | none => mrun b pc s caps k
  | .opt a, pc, s, caps, k =>
    match mrun a pc s caps k with
    | some r => some r
    | none => k pc s caps
  | .rep p lo hi lzy, pc, s, caps, k =>
    let m := runLen p s
    let top := match hi with | some h => min h m | none => m
    if lo > top then none
    else
      let counts :=
        if lzy then (List.range (top - lo + 1)).map (fun i => lo + i)
        else (List.range (top - lo + 1)).map (fun i => top - i)
      firstSome (fun j =>
        k (if j = 0 then pc else (s.take j).getLast?) (s.drop j) caps) counts
  | .grp n a, pc, s, caps, k =>
    mrun a pc s caps (fun pc' s' caps' =>
      k pc' s' ((n, s.take (s.length - s'.length)) :: caps'))
  | .wordB, pc, s, caps, k =>
    let lw := match pc with | some c => isWordChar c | none => false
    let rw := match s with | c :: _ => isWordChar c | [] => false
    if lw ≠ rw then k pc s caps else none

/-- Scan start positions left to right; models re.search.  Returns the
start index of the leftmost match together with its captures. -/
def reSearchAux (r : RE) : Option Char → List Char → Nat → Option (Nat × Caps)
  | pc, s, i =>
    match mrun r pc s [] (fun _ _ caps => some caps) with
    | some caps => some (i, caps)
    | none =>
      match s with
      | [] => none
      | c :: rest => reSearchAux r (some c) rest (i + 1)

/-- re.search on a string: leftmost match position and captures, if any. -/
def reSearch (r : RE) (s : String) : Option (Nat × Caps) := reSearchAux r none s.data 0

/-- Did the pattern match anywhere?  Models `if re.search(...)`. -/
def reTest (r : RE) (s : String) : Bool := (reSearch r s).isSome

/-- match.group(n): the span of group n, if it participated. -/
def capGet (caps : Caps) (n : Nat) : Option (List Char) := caps.lookup n

/-- Literal pattern from a string. -/
def strRE (s : String) : RE := .lit s.data

/-- Ordered alternation of a list of patterns (first alternative preferred). -/
def altL : List RE → RE
  | [] => .lit []
  | [r] => r
  | r :: rs => .alt r (altL rs)

/-- The regex \s* (greedy). -/
def spaces0 : RE := .rep isSpaceChar 0 none false

/-- The regex \s+ (greedy). -/
def spaces1 : RE := .rep isSpaceChar 1 none false

/-- The regex .*? (lazy). -/
def dotLazy : RE := .rep isAnyChar 0 none true

/-! ### Criteria parser (backend/nlp/criteria_parser.py)

The synonym dictionary clinical_synonyms.json is an external data
artifact (produced offline by fetch_synonyms.py); the parser takes it
as a parameter, modelling the Python dict as an association list in
insertion order. -/

/-- The synonym dictionary: canonical key to list of surface forms. -/
abbrev Syn := List (String × List String)

/-- ParsedCriteria as assembled by CriteriaParser.parse.  Numeric
fields are rationals (Python ints and floats), the labs dict is an
association list in insertion order, temporal is the washout dict with
its two possible keys, lines_of_therapy the min/max dict. -/
structure LabRule where
  operator : String
  value : ℚ
  unit : String
deriving DecidableEq, Repr

structure LinesRule where
  lmin : ℤ
  lmax : ℤ
deriving DecidableEq, Repr

structure Temporal where
  chemo_washout : Option ℚ := none
  surgery_washout : Option ℚ := none
deriving DecidableEq, Repr

structure ParsedCriteria where
  conditions : List String
  biomarkers : List String
  ecog : List ℤ
  labs : List (String × LabRule)
  exclusions : List String
  age_range : ℚ × ℚ
  gender : String
  temporal : Temporal
  lines_of_therapy : LinesRule
deriving DecidableEq, Repr

/-- The pattern \b term \b with the term lower-cased; the per-term
pattern of _extract_conditions and _extract_biomarkers (re.escape makes
the term literal). -/
def termRE (term : String) : RE := .seq .wordB (.seq (.lit (strLower term).data) .wordB)

/-- _extract_conditions: canonical keys (skipping _Gene/_Receptor/_Level
keys) any of whose surface forms occurs with word boundaries, in
dictionary order. -/
def extractConditions (syn : Syn) (text : String) : List String :=
  (syn.filter (fun kv =>
    !(strEnds kv.1 "_Gene" || strEnds kv.1 "_Receptor" || strEnds kv.1 "_Level"))).filterMap
    (fun kv => if kv.2.any (fun t => reTest (termRE t) text) then some kv.1 else none)

/-- The biomarker key suffixes of _extract_biomarkers, in source order. -/
def bioSuffixes : List String :=
  ["_Gene", "_Receptor", "_Marker", "_Status", "_Mutation", "_Score"]

/-- key.replace(suffix, "") chained over all biomarker suffixes. -/
def bioClean (k : String) : String :=
  bioSuffixes.foldl (fun s suf => s.replace suf "") k

/-- _extract_biomarkers: keys containing one of the biomarker suffixes
as a substring, any of whose surface forms matches; cleaned names are
appended without duplicates. -/
def extractBiomarkers (syn : Syn) (text : String) : List String :=
  syn.foldl (fun found kv =>
    if bioSuffixes.any (fun suf => strHasSub kv.1 suf) then
      if kv.2.any (fun t => reTest (termRE t) text) then
        let clean := bioClean kv.1
        if found.contains clean then found else found ++ [clean]
      else found
    else found) []

/-- The alternation (?:ecog|zubrod|who). -/
def ecogKeys : RE := altL [strRE "ecog", strRE "zubrod", strRE "who"]

/-- (?:ecog|zubrod|who).*?status.*?(\d)\s*(?:-|to)\s*(\d) -/
def ecogRangeRE : RE :=
  .seq ecogKeys (.seq dotLazy (.seq (strRE "status") (.seq dotLazy
    (.seq (.grp 1 (.cls isDigitChar)) (.seq spaces0 (.seq (altL [strRE "-", strRE "to"])
      (.seq spaces0 (.grp 2 (.cls isDigitChar)))))))))

/-- (?:ecog|zubrod|who).*?(?:≤|<=|up to|less than).*?(\d) -/
def ecogLteRE : RE :=
  .seq ecogKeys (.seq dotLazy (.seq (altL [strRE "≤", strRE "<=", strRE "up to", strRE "less than"])
    (.seq dotLazy (.grp 1 (.cls isDigitChar)))))

/-- (?:ecog|zubrod|who).*?(\d)(?:\s*or\s*|\s*,\s*)(\d) -/
def ecogPairRE : RE :=
  .seq ecogKeys (.seq dotLazy (.seq (.grp 1 (.cls isDigitChar))
    (.seq (altL [.seq spaces0 (.seq (strRE "or") spaces0), .seq spaces0 (.seq (strRE ",") spaces0)])
      (.grp 2 (.cls isDigitChar)))))

/-- Sorted duplicate-free insertion: the canonical representation of
the Python integer set allowed_scores, which the source finally renders
with sorted(list(...)). -/
def insertAscNat (x : ℕ) : List ℕ → List ℕ
  | [] => [x]
  | y :: ys => if x < y then x :: y :: ys else if x = y then y :: ys else y :: insertAscNat x ys

/-- Add the integers a..b (inclusive) to the set. -/
def insertRange (a b : ℕ) (s : List ℕ) : List ℕ :=
  ((List.range (b + 1 - a)).map (fun i => a + i)).foldl (fun s x => insertAscNat x s) s

/-- The scores contributed by the explicit-range and upper-bound ECOG
patterns (both guarded by the value 5 in the source), as a sorted set. -/
def ecogPrimary (text : String) : List ℕ :=
  let s1 : List ℕ :=
    match reSearch ecogRangeRE text with
    | some (_, caps) =>
      let a := natOfDigits ((capGet caps 1).getD [])
      let b := natOfDigits ((capGet caps 2).getD [])
      if a ≤ b ∧ b ≤ 5 then insertRange a b [] else []
    | none => []
  match reSearch ecogLteRE text with
  | some (_, caps) =>
    let limit := natOfDigits ((capGet caps 1).getD [])
    if limit ≤ 5 then insertRange 0 limit s1 else s1
  | none => s1

/-- _extract_ecog: union of the guarded patterns; if that is empty, the
unguarded "X or Y" fallback; returned sorted (sorted(list(set))). -/
def extractEcog (text : String) : List ℕ :=
  let primary := ecogPrimary text
  if primary = [] then
    match reSearch ecogPairRE text with
    | some (_, caps) =>
      insertAscNat (natOfDigits ((capGet caps 2).getD []))
        (insertAscNat (natOfDigits ((capGet caps 1).getD [])) [])
    | none => []
  else primary

/-- The lab operator alternation, in source order; note > is tried
before >= so matching >= relies on backtracking. -/
def labOpRE : RE := altL [strRE ">", strRE ">=", strRE "<", strRE "<=", strRE "≥", strRE "≤",
  strRE "greater than", strRE "less than", strRE "equals", strRE "up to"]

/-- [a-z/%µ] character class of the unit group. -/
def isUnitChar (c : Char) : Bool := (('a' ≤ c) && (c ≤ 'z')) || (c = '/') || (c = '%') || (c = 'µ')

/-- (op)\s*(\d+(?:\.\d+)?)\s*([a-z/%µ]+)? with groups 1, 2, 3. -/
def labOpPattern : RE :=
  .seq (.grp 1 labOpRE) (.seq spaces0 (.seq
    (.grp 2 (.seq (.rep isDigitChar 1 none false) (.opt (.seq (.lit ['.']) (.rep isDigitChar 1 none false)))))
    (.seq spaces0 (.opt (.grp 3 (.rep isUnitChar 1 none false))))))

/-- \b term \b .{0,30}? followed by the operator pattern. -/
def labRE (term : String) : RE :=
  .seq .wordB (.seq (.lit (strLower term).data) (.seq .wordB
    (.seq (.rep isAnyChar 0 (some 30) true) labOpPattern)))

/-- Operator normalization of _extract_labs (substring tests on the raw
operator, in source order; ">=" hence normalizes to ">" and "<=" to "<"). -/
def normOp (raw : String) : String :=
  if strHasSub raw "greater" || strHasSub raw ">" || strHasSub raw "≥" then ">"
  else if strHasSub raw "less" || strHasSub raw "<" || strHasSub raw "≤" || strHasSub raw "up to" then "<"
  else if strHasSub raw "equals" || strHasSub raw "=" then "="
  else raw

/-- key.replace("_Level","").replace("_Count",""). -/
def labClean (k : String) : String := (k.replace "_Level" "").replace "_Count" ""

/-- Python dict assignment d[k] = v on an insertion-ordered dict. -/
def dictPut {β : Type} (k : String) (v : β) : List (String × β) → List (String × β)
  | [] => [(k, v)]
  | (k', v') :: rest => if k' = k then (k, v) :: rest else (k', v') :: dictPut k v rest

/-- _extract_labs: for each key containing _Level or _Count, the first
surface form that matches (term, short window, operator, value, unit)
contributes one normalized rule under the cleaned name. -/
def extractLabs (syn : Syn) (text : String) : List (String × LabRule) :=
  syn.foldl (fun acc kv =>
    if strHasSub kv.1 "_Level" || strHasSub kv.1 "_Count" then
      match firstSome (fun t => reSearch (labRE t) text) kv.2 with
      | some (_, caps) =>
        let rawOp : String := ⟨(capGet caps 1).getD []⟩
        let value := ratOfNumChars ((capGet caps 2).getD [])
        let unit : String := ⟨(capGet caps 3).getD []⟩
        dictPut (labClean kv.1) ⟨normOp rawOp, value, pyStrip unit⟩ acc
      | none => acc
    else acc) []

/-- (\d+)\s*(day|week|month)s?.*?since.*?(targets) of _extract_temporal. -/
def temporalRE (targets : RE) : RE :=
  .seq (.grp 1 (.rep isDigitChar 1 none false)) (.seq spaces0
    (.seq (.grp 2 (altL [strRE "day", strRE "week", strRE "month"]))
      (.seq (.opt (strRE "s")) (.seq dotLazy (.seq (strRE "since") (.seq dotLazy (.grp 3 targets)))))))

/-- to_days of _extract_temporal: weeks times 7, months times 30. -/
def toDays (val : ℕ) (unit : String) : ℕ :=
  if strHasSub unit "week" then val * 7
  else if strHasSub unit "month" then val * 30
  else val

/-- One washout pattern: the converted day count, if the pattern matches. -/
def washoutOf (targets : RE) (text : String) : Option ℚ :=
  match reSearch (temporalRE targets) text with
  | some (_, caps) =>
    let value := natOfDigits ((capGet caps 1).getD [])
    let unit : String := ⟨(capGet caps 2).getD []⟩
    some ((toDays value unit : ℕ) : ℚ)
  | none => none

/-- _extract_temporal: chemo and surgery washouts in days. -/
def extractTemporal (text : String) : Temporal :=
  { chemo_washout := washoutOf (altL [strRE "chemo", strRE "treatment", strRE "therapy"]) text
    surgery_washout := washoutOf (altL [strRE "surger", strRE "operation"]) text }

/-- \b(treatment|chemo|therapy)\s*(naïve|naive|free)\b of _extract_lines. -/
def linesNaiveRE : RE :=
  .seq .wordB (.seq (altL [strRE "treatment", strRE "chemo", strRE "therapy"])
    (.seq spaces0 (.seq (altL [strRE "naïve", strRE "naive", strRE "free"]) .wordB)))

/-- (?:received|at least|>=)\s*(\d+)\s*(?:prior)?\s*(?:lines|regimens|therapies) -/
def linesMinRE : RE :=
  .seq (altL [strRE "received", strRE "at least", strRE ">="]) (.seq spaces0
    (.seq (.grp 1 (.rep isDigitChar 1 none false)) (.seq spaces0
      (.seq (.opt (strRE "prior")) (.seq spaces0 (altL [strRE "lines", strRE "regimens", strRE "therapies"]))))))

/-- (?:no more than|up to|<=)\s*(\d+)\s*(?:prior)?\s*(?:lines|regimens|therapies) -/
def linesMaxRE : RE :=
  .seq (altL [strRE "no more than", strRE "up to", strRE "<="]) (.seq spaces0
    (.seq (.grp 1 (.rep isDigitChar 1 none false)) (.seq spaces0
      (.seq (.opt (strRE "prior")) (.seq spaces0 (altL [strRE "lines", strRE "regimens", strRE "therapies"]))))))

/-- _extract_lines: treatment-naive phrasing forces max 0; otherwise the
min and max phrasings override the defaults 0 and 100. -/
def extractLines (text : String) : LinesRule :=
  if reTest linesNaiveRE text then ⟨0, 0⟩
  else
    let mn : ℤ := match reSearch linesMinRE text with
      | some (_, caps) => (natOfDigits ((capGet caps 1).getD []) : ℤ)
      | none => 0
    let mx : ℤ := match reSearch linesMaxRE text with
      | some (_, caps) => (natOfDigits ((capGet caps 1).getD []) : ℤ)
      | none => 100
    ⟨mn, mx⟩

/-- The 13 hard-coded exclusion patterns of _extract_exclusions with
their flags, evaluated in source order; two patterns each can append
Cardiac_Dysfunction and Bleeding_Disorder, so duplicates are possible. -/
def exclusionPatterns : List (RE × String) :=
  [ (.seq (altL [strRE "brain", strRE "cns", strRE "central nervous system"])
      (.seq spaces0 (altL [strRE "metastas", strRE "mets", strRE "tumor", strRE "disease"])), "CNS_Mets"),
    (.seq .wordB (.seq (altL [strRE "hiv", strRE "human immunodeficiency virus", strRE "aids"]) .wordB), "HIV"),
    (.seq .wordB (.seq (altL [strRE "hepatitis", strRE "hbv", strRE "hcv",
      strRE "hepatitis b", strRE "hepatitis c"]) .wordB), "Hepatitis"),
    (.seq .wordB (.seq (altL [strRE "pregnant", strRE "pregnancy", strRE "lactating",
      strRE "nursing", strRE "breastfeeding", strRE "childbearing potential"]) .wordB), "Pregnancy"),
    (.seq (altL [strRE "prior", strRE "history of", strRE "other", strRE "second", strRE "concurrent"])
      (.seq spaces0 (.seq (.opt (.grp 2 (strRE "primary ")))
        (altL [strRE "malignan", strRE "cancer", strRE "tumor", strRE "neoplasm"]))), "Prior_Malignancy"),
    (.seq (altL [strRE "cardiac", strRE "heart", strRE "myocardial"])
      (.seq spaces0 (altL [strRE "dysfunction", strRE "failure", strRE "insufficiency",
        strRE "infarction", strRE "disease"])), "Cardiac_Dysfunction"),
    (.seq .wordB (.seq (altL [strRE "nyha class", strRE "ejection fraction", strRE "lvef"]) .wordB),
      "Cardiac_Dysfunction"),
    (.seq (altL [strRE "renal", strRE "kidney"]) (.seq spaces0 (altL [strRE "failure",
      strRE "insufficiency", strRE "dysfunction", strRE "impairment"])), "Renal_Dysfunction"),
    (.seq (altL [strRE "hepatic", strRE "liver"]) (.seq spaces0 (altL [strRE "failure",
      strRE "insufficiency", strRE "dysfunction", strRE "cirrhosis", strRE "impairment"])),
      "Hepatic_Dysfunction"),
    (.seq (altL [strRE "pulmonary", strRE "respiratory", strRE "lung"]) (.seq spaces0
      (altL [strRE "failure", strRE "insufficiency", strRE "dysfunction"])), "Pulmonary_Dysfunction"),
    (.seq .wordB (.seq (altL [strRE "autoimmune", strRE "lupus", strRE "rheumatoid arthritis",
      strRE "crohn", strRE "colitis", strRE "inflammatory bowel"]) .wordB), "Autoimmune_Disease"),
    (.seq (altL [strRE "active", strRE "uncontrolled", strRE "ongoing"]) (.seq spaces0
      (altL [strRE "infection", strRE "sepsis", strRE "abscess"])), "Active_Infection"),
    (.seq (altL [strRE "bleeding", strRE "coagulation", strRE "clotting"]) (.seq spaces0
      (altL [strRE "disorder", strRE "diathesis", strRE "abnormality"])), "Bleeding_Disorder"),
    (.seq .wordB (.seq (altL [strRE "hemophilia", strRE "von willebrand"]) .wordB), "Bleeding_Disorder"),
    (.seq .wordB (.seq (altL [strRE "seizure", strRE "epilepsy", strRE "convulsion"]) .wordB),
      "Seizure_Disorder") ]

/-- _extract_exclusions: flags of the matching patterns, in order. -/
def extractExclusions (text : String) : List String :=
  exclusionPatterns.filterMap (fun pr => if reTest pr.1 text then some pr.2 else none)

/-- (?:≥|>=|at least|age|>\s*)\s*:?\s*(\d{1,3})\s*(?:years|yrs|y\.o\.|yo) -/
def ageMinRE : RE :=
  .seq (altL [strRE "≥", strRE ">=", strRE "at least", strRE "age", .seq (strRE ">") spaces0])
    (.seq spaces0 (.seq (.opt (strRE ":")) (.seq spaces0
      (.seq (.grp 1 (.rep isDigitChar 1 (some 3) false))
        (.seq spaces0 (altL [strRE "years", strRE "yrs", strRE "y.o.", strRE "yo"]))))))

/-- (?:≤|<=|up to|younger than)\s*:?\s*(\d{1,3})\s*(?:years|yrs|y\.o\.|yo) -/
def ageMaxRE : RE :=
  .seq (altL [strRE "≤", strRE "<=", strRE "up to", strRE "younger than"])
    (.seq spaces0 (.seq (.opt (strRE ":")) (.seq spaces0
      (.seq (.grp 1 (.rep isDigitChar 1 (some 3) false))
        (.seq spaces0 (altL [strRE "years", strRE "yrs", strRE "y.o.", strRE "yo"]))))))

/-- The clamp logic of _extract_age after the two regex searches: this
is lines 70-82 of criteria_parser.py with the match results abstracted. -/
def ageClamp (mn mx : Option ℕ) : ℕ × ℕ :=
  let min_age := mn.getD 0
  let max_age := mx.getD 100
  let min_age := if min_age > 120 then 0 else min_age
  let max_age := if max_age > 120 then 100 else max_age
  let max_age := if min_age > max_age then 100 else max_age
  (min_age, max_age)

/-- _extract_age: defaults (0, 100), overridden by the min and max
patterns, then clamped. -/
def extractAge (text : String) : ℕ × ℕ :=
  ageClamp
    ((reSearch ageMinRE text).map (fun pc => natOfDigits ((capGet pc.2 1).getD [])))
    ((reSearch ageMaxRE text).map (fun pc => natOfDigits ((capGet pc.2 1).getD [])))

/-- \b(women|female|females)\b -/
def femaleRE : RE := .seq .wordB (.seq (altL [strRE "women", strRE "female", strRE "females"]) .wordB)

/-- \b(men|male|males)\b -/
def maleRE : RE := .seq .wordB (.seq (altL [strRE "men", strRE "male", strRE "males"]) .wordB)

/-- _extract_gender: disjoint detection of the two token sets. -/
def extractGender (text : String) : String :=
  let hasF := reTest femaleRE text
  let hasM := reTest maleRE text
  if hasF && !hasM then "Female"
  else if hasM && !hasF then "Male"
  else "All"

/-- (?i)(exclusion\s+criteria\s*:?|exclusions\s*:) locating the
exclusion heading (the text is already lower-cased when searched). -/
def exclHeadRE : RE := altL [
  .seq (strRE "exclusion") (.seq spaces1 (.seq (strRE "criteria") (.seq spaces0 (.opt (strRE ":"))))),
  .seq (strRE "exclusions") (.seq spaces0 (strRE ":"))]

/-- The inclusion half: text before the exclusion heading, or all of it. -/
def inclusionHalf (tl : String) : String :=
  match reSearch exclHeadRE tl with
  | some (pos, _) => ⟨tl.data.take pos⟩
  | none => tl

/-- The exclusion half: text from the exclusion heading on, or empty. -/
def exclusionHalf (tl : String) : String :=
  match reSearch exclHeadRE tl with
  | some (pos, _) => ⟨tl.data.drop pos⟩
  | none => ""

/-- CriteriaParser.parse.  An empty text returns the empty dict in the
source, on which the scorer's key accesses raise; we model that as
none.  Otherwise the full record is assembled from the lower-cased
text, conditions from the inclusion half only, exclusions from the
hard-coded flags over the whole text plus condition keys found in the
exclusion half. -/
def parse (syn : Syn) (criteria_text : String) : Option ParsedCriteria :=
  if criteria_text = "" then none
  else
    let tl := strLower criteria_text
    let incl := inclusionHalf tl
    let excl := exclusionHalf tl
    let age := extractAge tl
    let lin := extractLines tl
    some {
      conditions := extractConditions syn incl
      biomarkers := extractBiomarkers syn tl
      ecog := (extractEcog tl).map (fun n => (n : ℤ))
      labs := extractLabs syn tl
      exclusions := extractExclusions tl ++ extractConditions syn excl
      age_range := ((age.1 : ℚ), (age.2 : ℚ))
      gender := extractGender tl
      temporal := extractTemporal tl
      lines_of_therapy := lin }

/-! ### Feasibility scorer (backend/nlp/feasibility_scorer.py)

The UMLS linker is an external pluggable capability; we model it as an
optional oracle from text to CUI lists (None models the linker failing
to load).  The patient profile dict is a structure of optional fields:
a key that is absent behaves like a key mapped to None everywhere the
scorer reads it, so one Option per field is faithful.  Reason strings
are reproduced exactly where they are deterministic (the hard-exclusion
message); messages that render Python sets or floats are rendered in
first-appearance order with rational number formatting, which no
verified property depends on. -/

/-- The UMLS linker oracle: extract_cuis on one text. -/
abbrev Umls := String → List String

/-- CUIs of a list of texts (set union, modelled as concatenation since
only membership is ever used); empty when the linker is unavailable,
like FeasibilityScorer.extract_cuis. -/
def extractCuisMany (umls : Option Umls) (texts : List String) : List String :=
  match umls with
  | none => []
  | some u => texts.flatMap u

structure PatientProfile where
  age : Option ℚ := none
  gender : Option String := none
  ecog : Option ℤ := none
  conditions : List String := []
  biomarkers : List String := []
  history : List String := []
  labs : List (String × Option ℚ) := []
  prior_lines : Option ℤ := none
  days_since_last_treatment : Option ℚ := none
deriving Repr

/-- Structured DB columns passed as trial_metadata. -/
structure TrialMetadata where
  parsed_criteria : Option ParsedCriteria := none
  min_age_years : Option ℚ := none
  max_age_years : Option ℚ := none
  sex : Option String := none
  conditions : List String := []
  conditions_cuis : List String := []
deriving Repr

structure ScoreResult where
  score : ℤ
  is_feasible : Bool
  reasons : List String
  parsed_criteria : ParsedCriteria
deriving DecidableEq, Repr

/-- The metadata override step of score_patient (lines 74-94): DB age
bounds replace the parsed ones, a non-empty DB sex replaces the parsed
gender. -/
def applyOverride (td : ParsedCriteria) (m : TrialMetadata) : ParsedCriteria :=
  let td := match m.min_age_years with
    | some v => { td with age_range := (v, td.age_range.2) }
    | none => td
  let td := match m.max_age_years with
    | some v => { td with age_range := (td.age_range.1, v) }
    | none => td
  match m.sex with
  | some s =>
    if s = "" then td
    else if strUpper s = "MALE" then { td with gender := "Male" }
    else if strUpper s = "FEMALE" then { td with gender := "Female" }
    else { td with gender := "All" }
  | none => td

/-- Render a list of strings the way the reason strings do (Python list
repr, elements in first-appearance order). -/
def renderList (l : List String) : String :=
  "[" ++ String.intercalate ", " (l.map (fun s => "\x27" ++ s ++ "\x27")) ++ "]"

/-- Running state of score_patient: the accumulated score, the reason
list and the feasibility flag. -/
structure SState where
  score : ℤ
  reasons : List String
  feasible : Bool
deriving DecidableEq, Repr

/-- Section 2 of score_patient, CONDITION MATCHING: +5 when the patient
gave no conditions, +40 on a CUI or substring match, otherwise the
trial is marked infeasible. -/
def conditionStep (patientConditions : List String) (allTrialIndications : List String)
    (umls : Option Umls) (patientCuis : Option (List String)) (trialCuis : List String)
    (st : SState) : SState :=
  if patientConditions = [] then
    { st with score := st.score + 5,
              reasons := st.reasons ++ [" No patient conditions provided - relevance unclear"] }
  else
    let pCuis : List String :=
      match umls with
      | none => patientCuis.getD []
      | some u => match patientCuis with
        | some cs => cs
        | none => patientConditions.flatMap u
    let commonCuis := if umls.isSome then pCuis.filter (fun c => trialCuis.contains c) else []
    let umlsFound := umls.isSome && !commonCuis.isEmpty
    let pLower := patientConditions.map strLower
    let tLower := allTrialIndications.map strLower
    let subFound := pLower.any (fun p => tLower.any (fun t => strHasSub t p || strHasSub p t))
    let matchFound := umlsFound || subFound
    if matchFound then
      let names :=
        if umlsFound then ["UMLS Match (CUIs: " ++ renderList commonCuis ++ ")"]
        else (pLower.flatMap (fun p => tLower.filter (fun t => strHasSub t p || strHasSub p t)))
      { st with score := st.score + 40,
                reasons := st.reasons ++ [" Condition Match: " ++ renderList names] }
    else
      { st with feasible := false,
                reasons := st.reasons ++ [" Condition Mismatch: Patient has "
                  ++ renderList patientConditions ++ ", Trial is for "
                  ++ renderList (allTrialIndications.take 3)] }

/-- Section 3, BIOMARKER MATCHING: +25 on a non-empty intersection. -/
def biomarkerStep (patientBios trialBios : List String) (st : SState) : SState :=
  let common := patientBios.filter (fun b => trialBios.contains b)
  if common.isEmpty then st
  else { st with score := st.score + 25,
                 reasons := st.reasons ++ [" Biomarker Match: " ++ renderList common] }

/-- Section 4, ECOG CHECK: membership in the allowed list gives +15,
non-membership marks the trial infeasible; skipped when the trial
imposes no ECOG constraint or the patient has none recorded. -/
def ecogStep (trialEcog : List ℤ) (pEcog : Option ℤ) (st : SState) : SState :=
  if trialEcog ≠ [] then
    match pEcog with
    | some e =>
      if trialEcog.contains e then
        { st with score := st.score + 15,
                  reasons := st.reasons ++ [" ECOG " ++ toString e ++ " is allowed"] }
      else
        { st with feasible := false,
                  reasons := st.reasons ++ [" ECOG " ++ toString e ++ " excluded (Trial needs: "
                    ++ toString trialEcog ++ ")"] }
    | none => st
  else st

/-- One lab rule check of section 5: does the patient value satisfy the
rule?  The source checks only the four operators >, >=, <, <=; any
other operator (notably "=", which the parser emits for "equals") can
never pass. -/
def labPassed (op : String) (val threshold : ℚ) : Bool :=
  if op = ">" then decide (val > threshold)
  else if op = ">=" then decide (val ≥ threshold)
  else if op = "<" then decide (val < threshold)
  else if op = "<=" then decide (val ≤ threshold)
  else false

/-- The lab loop of section 5: points (+5 per pass), failure count and
reasons, iterating the trial labs dict in order and skipping labs the
patient lacks or has recorded as None. -/
def labLoop (patientLabs : List (String × Option ℚ)) :
    List (String × LabRule) → ℤ × ℤ × List String
  | [] => (0, 0, [])
  | (name, rule) :: rest =>
    let (pts, fails, msgs) := labLoop patientLabs rest
    match patientLabs.lookup name with
    | some (some val) =>
      if labPassed rule.operator val rule.value then
        (pts + 5, fails, (" Lab Passed: " ++ name ++ " " ++ toString val ++ " "
          ++ rule.operator ++ " " ++ toString rule.value) :: msgs)
      else
        (pts, fails + 1, (" Lab Failed: " ++ name ++ " " ++ toString val ++ " NOT "
          ++ rule.operator ++ " " ++ toString rule.value) :: msgs)
    | _ => (pts, fails, msgs)

/-- Section 5, LAB THRESHOLDS: pass points capped at +15, any failure
marks the trial infeasible and appends a summary reason. -/
def labStep (patientLabs : List (String × Option ℚ)) (trialLabs : List (String × LabRule))
    (st : SState) : SState :=
  let (pts, fails, msgs) := labLoop patientLabs trialLabs
  let st := { st with score := st.score + min pts 15, reasons := st.reasons ++ msgs }
  if fails > 0 then
    { st with feasible := false,
              reasons := st.reasons ++ [" " ++ toString fails
                ++ " critical lab(s) failed - patient ineligible"] }
  else st

/-- Section 6, AGE: within the (possibly overridden) bounds gives +5,
outside marks infeasible. -/
def ageStep (ageRange : ℚ × ℚ) (pAge : Option ℚ) (st : SState) : SState :=
  match pAge with
  | some a =>
    if ageRange.1 ≤ a ∧ a ≤ ageRange.2 then
      { st with score := st.score + 5,
                reasons := st.reasons ++ [" Age " ++ toString a ++ " matched"] }
    else
      { st with feasible := false,
                reasons := st.reasons ++ [" Age " ++ toString a ++ " outside ["
                  ++ toString ageRange.1 ++ "-" ++ toString ageRange.2 ++ "]"] }
  | none => st

/-- (?:received|at least|>=?)\s*(\d+)\s*(?:prior|previous)\s*lines? of
section 7 (searched case-insensitively over the raw criteria text,
modelled by searching the lower-cased text). -/
def scorerMinLinesRE : RE :=
  .seq (altL [strRE "received", strRE "at least", .seq (strRE ">") (.opt (strRE "="))])
    (.seq spaces0 (.seq (.grp 1 (.rep isDigitChar 1 none false)) (.seq spaces0
      (.seq (altL [strRE "prior", strRE "previous"]) (.seq spaces0
        (.seq (strRE "line") (.opt (strRE "s"))))))))

/-- (?:no more than|up to|<=?)\s*(\d+)\s*(?:prior|previous)\s*lines? of
section 7. -/
def scorerMaxLinesRE : RE :=
  .seq (altL [strRE "no more than", strRE "up to", .seq (strRE "<") (.opt (strRE "="))])
    (.seq spaces0 (.seq (.grp 1 (.rep isDigitChar 1 none false)) (.seq spaces0
      (.seq (altL [strRE "prior", strRE "previous"]) (.seq spaces0
        (.seq (strRE "line") (.opt (strRE "s"))))))))

/-- The first check of section 7, PRIOR LINES OF THERAPY (regexes over
the raw criteria text): the minimum-lines pattern adds +10 or marks
infeasible. -/
def minLinesCheck (tl : String) (p : ℤ) (st : SState) : SState :=
  match reSearch scorerMinLinesRE tl with
  | some (_, caps) =>
    let requiredMin : ℤ := (natOfDigits ((capGet caps 1).getD []) : ℤ)
    if p ≥ requiredMin then
      { st with score := st.score + 10,
                reasons := st.reasons ++ [" Prior Lines " ++ toString p ++ " >= "
                  ++ toString requiredMin ++ " (Matched)"] }
    else
      { st with feasible := false,
                reasons := st.reasons ++ [" Prior Lines " ++ toString p ++ " < "
                  ++ toString requiredMin ++ " (Trial requires at least "
                  ++ toString requiredMin ++ ")"] }
  | none => st

/-- The second check of section 7 (the maximum-lines pattern). -/
def maxLinesCheck (tl : String) (p : ℤ) (st : SState) : SState :=
  match reSearch scorerMaxLinesRE tl with
  | some (_, caps) =>
    let limitMax : ℤ := (natOfDigits ((capGet caps 1).getD []) : ℤ)
    if p ≤ limitMax then
      { st with score := st.score + 10,
                reasons := st.reasons ++ [" Prior Lines " ++ toString p ++ " <= "
                  ++ toString limitMax ++ " (Matched)"] }
    else
      { st with feasible := false,
                reasons := st.reasons ++ [" Prior Lines " ++ toString p ++ " > "
                  ++ toString limitMax ++ " (Trial limit is " ++ toString limitMax ++ ")"] }
  | none => st

/-- Section 7 proper: both checks run in sequence when the patient has
a prior-lines count. -/
def priorLinesTextStep (criteriaText : String) (pLines : Option ℤ) (st : SState) : SState :=
  match pLines with
  | none => st
  | some p => maxLinesCheck (strLower criteriaText) p (minLinesCheck (strLower criteriaText) p st)

/-- The gender section: +5 when the trial is open to all or matches the
capitalized patient gender, otherwise infeasible; skipped when the
profile has no (or an empty) gender. -/
def genderStep (trialGender : String) (pGender : Option String) (st : SState) : SState :=
  match pGender with
  | none => st
  | some g =>
    if g = "" then st
    else
      let pg := pyCapitalize g
      if trialGender = "All" then
        { st with score := st.score + 5,
                  reasons := st.reasons ++ ["Gender matched (Trial open to All)"] }
      else if pg = trialGender then
        { st with score := st.score + 5, reasons := st.reasons ++ ["Gender " ++ pg ++ " matched"] }
      else
        { st with feasible := false,
                  reasons := st.reasons ++ ["Gender Mismatch: Patient " ++ pg ++ " vs Trial "
                    ++ trialGender] }

/-- Section TEMPORAL WASHOUTS: both values present and patient ≥
required gives +5, both present and patient < required marks
infeasible. -/
def washoutStep (pWashout : Option ℚ) (tWashout : Option ℚ) (st : SState) : SState :=
  match pWashout, tWashout with
  | some p, some t =>
    if p ≥ t then
      { st with score := st.score + 5,
                reasons := st.reasons ++ ["Washout Cleared: " ++ toString p ++ "d > "
                  ++ toString t ++ "d"] }
    else
      { st with feasible := false,
                reasons := st.reasons ++ ["Washout Fail: Only " ++ toString p
                  ++ " days (Needs " ++ toString t ++ ")"] }
  | _, _ => st

/-- Section 8, LINES OF THERAPY: prior lines within the parsed
[min, max] interval gives +10, outside marks infeasible. -/
def linesStep (pLines : Option ℤ) (rule : LinesRule) (st : SState) : SState :=
  match pLines with
  | none => st
  | some p =>
    if rule.lmin ≤ p ∧ p ≤ rule.lmax then
      { st with score := st.score + 10,
                reasons := st.reasons ++ ["Lines of Therapy: " ++ toString p ++ " (Allowed: "
                  ++ toString rule.lmin ++ "-" ++ toString rule.lmax ++ ")"] }
    else
      { st with feasible := false,
                reasons := st.reasons ++ ["Lines Fail: Patient has " ++ toString p
                  ++ ", Trial needs " ++ toString rule.lmin ++ "-" ++ toString rule.lmax ++ ")"] }

/-- FeasibilityScorer._compile_result: clamp the score at 100, force it
to 0 when infeasible. -/
def compileResult (score : ℤ) (feasible : Bool) (reasons : List String)
    (td : ParsedCriteria) : ScoreResult :=
  { score := if feasible then min score 100 else 0,
    is_feasible := feasible, reasons := reasons, parsed_criteria := td }

/-- The hard-exclusion reason of section 1, exactly as formatted by the
source (leading space, and the flag in single quotes). -/
def hardExclusionMsg (flag : String) : String :=
  " Hard Exclusion: Patient has \x27" ++ flag ++ "\x27"

/-- Sections 2 through 8 of score_patient in source order: condition,
biomarker, ECOG, labs, age, prior-lines text patterns, gender, washout,
lines of therapy, starting from score 0, no reasons, feasible. -/
def scorePipeline (umls : Option Umls) (profile : PatientProfile)
    (criteriaText : String) (patientCuis : Option (List String))
    (dbConditions dbCuis : List String) (td : ParsedCriteria) : SState :=
  let st : SState := ⟨0, [], true⟩
  let st := conditionStep profile.conditions (td.conditions ++ dbConditions)
    umls patientCuis dbCuis st
  let st := biomarkerStep profile.biomarkers td.biomarkers st
  let st := ecogStep td.ecog profile.ecog st
  let st := labStep profile.labs td.labs st
  let st := ageStep td.age_range profile.age st
  let st := priorLinesTextStep criteriaText profile.prior_lines st
  let st := genderStep td.gender profile.gender st
  let st := washoutStep profile.days_since_last_treatment td.temporal.chemo_washout st
  linesStep profile.prior_lines td.lines_of_therapy st

/-- FeasibilityScorer.score_patient.  The parser dictionary and the
UMLS oracle stand for the scorer's self.parser and lazily loaded
linker.  Returns none when the Python code would raise (the cached
criteria are absent and the criteria text is empty, so parse yields the
empty dict and the subsequent key accesses fail). -/
def scorePatient (syn : Syn) (umls : Option Umls) (profile : PatientProfile)
    (criteriaText : String) (metadata : Option TrialMetadata)
    (patientCuis : Option (List String)) : Option ScoreResult :=
  let cached : Option ParsedCriteria :=
    match metadata with
    | some m => m.parsed_criteria
    | none => none
  let parsedOpt : Option ParsedCriteria :=
    match cached with
    | some pc => some pc
    | none => parse syn criteriaText
  match parsedOpt with
  | none => none
  | some td0 =>
    let td := match metadata with
      | some m => applyOverride td0 m
      | none => td0
    let dbConditions := match metadata with
      | some m => m.conditions
      | none => []
    let dbCuis := match metadata with
      | some m => m.conditions_cuis
      | none => []
    let issues := profile.conditions ++ profile.history
    match td.exclusions.find? (fun e => issues.contains e) with
    | some flag => some (compileResult 0 false [hardExclusionMsg flag] td)
    | none =>
      let fin := scorePipeline umls profile criteriaText patientCuis dbConditions dbCuis td
      some (compileResult fin.score fin.feasible fin.reasons td)

/-! ### Retrieval fusion and feasibility rerank (backend/api/main.py) -/

/-- One RRF contribution: rrf_map[id] += 1/(k + rank + 1) on the
insertion-ordered dict, inserting a fresh id at the end (Python dict
semantics). -/
def rrfAdd (k rank : ℕ) (id : String) : List (String × ℚ) → List (String × ℚ)
  | [] => [(id, 1 / ((k : ℚ) + rank + 1))]
  | (i, v) :: rest =>
    if i = id then (i, v + 1 / ((k : ℚ) + rank + 1)) :: rest
    else (i, v) :: rrfAdd k rank id rest

/-- compute_rrf: sum the reciprocal-rank contributions of every list,
ranks from enumerate starting at 0, so a 1-based rank r contributes
1/(k + r). -/
def computeRrf (rankLists : List (List String)) (k : ℕ) : List (String × ℚ) :=
  rankLists.foldl (fun m rl =>
    (rl.enum.foldl (fun m p => rrfAdd k p.1 p.2 m) m)) []

/-- Python min over a non-empty list of floats (0 as an unused default
for the empty list). -/
def pyMin : List ℚ → ℚ
  | [] => 0
  | x :: xs => xs.foldl min x

/-- Python max over a non-empty list of floats. -/
def pyMax : List ℚ → ℚ
  | [] => 0
  | x :: xs => xs.foldl max x

/-- The local _norm of _apply_feasibility_rerank: constant 1.0 when
v_max ≤ v_min, else the min-max affine rescaling. -/
def normVal (vmin vmax x : ℚ) : ℚ :=
  if vmax ≤ vmin then 1 else (x - vmin) / (vmax - vmin)

/-- _normalize_scores: empty dict for no scores; all 1.0 when max =
min; otherwise min-max rescaling, keyed by the stringified index. -/
def normalizeScores (scores : List ℚ) : List (String × ℚ) :=
  match scores with
  | [] => []
  | _ =>
    let mn := pyMin scores
    let mx := pyMax scores
    if mx = mn then (List.range scores.length).map (fun i => (toString i, (1 : ℚ)))
    else scores.enum.map (fun p => (toString p.1, (p.2 - mn) / (mx - mn)))

/-- A lexical hit as _apply_feasibility_rerank consumes it: the sortable
score slot plus the structured columns forwarded to the scorer. -/
structure Hit where
  nct_id : String
  score : Option ℚ := none
  min_age_years : Option ℚ := none
  max_age_years : Option ℚ := none
  sex : Option String := none
  conditions : List String := []
  conditions_cuis : List String := []
  parsed_criteria : Option ParsedCriteria := none
deriving Repr

/-- A hit after the rerank: blended score, normalized retrieval score
and the recorded feasibility outcome (none = undetermined). -/
structure HitOut where
  nct_id : String
  score : ℚ
  retrieval_score : ℚ
  feasibility_score : Option ℤ
  feasibility_reasons : List String
  is_feasible : Option Bool
deriving Repr

/-- The trial_metadata dict built for one hit inside the rerank loop. -/
def metaOfHit (h : Hit) : TrialMetadata :=
  { parsed_criteria := h.parsed_criteria, min_age_years := h.min_age_years,
    max_age_years := h.max_age_years, sex := h.sex,
    conditions := h.conditions, conditions_cuis := h.conditions_cuis }

/-- The raw retrieval score of a hit; None scores count as 0.0. -/
def rawScore (h : Hit) : ℚ := h.score.getD 0

/-- The feasibility verdict recorded for one hit: none when the hit has
no criteria text or the scorer raises, otherwise the scorer's boolean. -/
def hitVerdict (syn : Syn) (umls : Option Umls) (criteria : List (String × String))
    (profile : PatientProfile) (pCuis : Option (List String)) (h : Hit) : Option Bool :=
  let ctext := (criteria.lookup h.nct_id).getD ""
  if ctext = "" then none
  else
    match scorePatient syn umls profile ctext (some (metaOfHit h)) pCuis with
    | some res => some res.is_feasible
    | none => none

/-- The body of the rerank loop for one hit: normalize the retrieval
score, score feasibility (None criteria text or a scorer exception
leaves it undetermined with feasibility_norm 0), and blend. -/
def evalHit (syn : Syn) (umls : Option Umls) (criteria : List (String × String))
    (profile : PatientProfile) (pCuis : Option (List String)) (vmin vmax w : ℚ)
    (h : Hit) : HitOut :=
  let rn := normVal vmin vmax (rawScore h)
  let ctext := (criteria.lookup h.nct_id).getD ""
  if ctext = "" then
    { nct_id := h.nct_id, score := (1 - w) * rn + w * 0, retrieval_score := rn,
      feasibility_score := none, feasibility_reasons := ["No eligibility criteria available"],
      is_feasible := none }
  else
    match scorePatient syn umls profile ctext (some (metaOfHit h)) pCuis with
    | some res =>
      { nct_id := h.nct_id, score := (1 - w) * rn + w * ((res.score : ℚ) / 100),
        retrieval_score := rn, feasibility_score := some res.score,
        feasibility_reasons := res.reasons, is_feasible := some res.is_feasible }
    | none =>
      { nct_id := h.nct_id, score := (1 - w) * rn + w * 0, retrieval_score := rn,
        feasibility_score := none, feasibility_reasons := ["Feasibility scoring error"],
        is_feasible := none }

/-- Stable insertion of x into a list sorted descending by key: x goes
before the first element of strictly smaller or equal-and-later key.
This computes the same permutation as Python's stable list.sort with
reverse=True, which is unique given sortedness plus stability. -/
def insDesc {α : Type} (key : α → ℚ) (x : α) : List α → List α
  | [] => [x]
  | y :: ys => if key y ≤ key x then x :: y :: ys else y :: insDesc key x ys

/-- Stable descending sort by a rational key (insertion sort). -/
def sortDescBy {α : Type} (key : α → ℚ) : List α → List α
  | [] => []
  | x :: xs => insDesc key x (sortDescBy key xs)

/-- The once-per-request patient CUIs of the rerank (None when the
profile lists no conditions, mirroring the source). -/
def rerankCuis (umls : Option Umls) (profile : PatientProfile) : Option (List String) :=
  if profile.conditions = [] then none
  else some (extractCuisMany umls profile.conditions)

/-- _apply_feasibility_rerank: no-op on an empty hit list (before the
weight check), a 400 error (none) for a weight outside [0,1], otherwise
per-hit evaluation and blending, stable sort by blended score
descending, then removal of the hits scored explicitly infeasible. -/
def applyRerank (syn : Syn) (umls : Option Umls) (hits : List Hit)
    (criteria : List (String × String)) (profile : PatientProfile) (w : ℚ) :
    Option (List HitOut) :=
  match hits with
  | [] => some []
  | _ =>
    if 0 ≤ w ∧ w ≤ 1 then
      let vmin := pyMin (hits.map rawScore)
      let vmax := pyMax (hits.map rawScore)
      let evaluated := hits.map (evalHit syn umls criteria profile (rerankCuis umls profile) vmin vmax w)
      some ((sortDescBy HitOut.score evaluated).filter (fun h => h.is_feasible ≠ some false))
    else none

/-! ### Concrete instances used by the verified properties below -/

/-- The patient of the spec's hard-exclusion scenario. -/
def c1Profile : PatientProfile := { conditions := ["Pregnancy"] }

/-- The parsed criteria of the spec's hard-exclusion scenario. -/
def c1Parsed : ParsedCriteria :=
  { conditions := [], biomarkers := [], ecog := [], labs := [], exclusions := ["Pregnancy"],
    age_range := (0, 100), gender := "All", temporal := {}, lines_of_therapy := ⟨0, 100⟩ }

/-- Metadata carrying the cached parsed criteria of the scenario. -/
def c1Meta : TrialMetadata := { parsed_criteria := some c1Parsed }

/-- A default record used only to extract values from options. -/
def emptyParsed : ParsedCriteria :=
  { conditions := [], biomarkers := [], ecog := [], labs := [], exclusions := [],
    age_range := (0, 100), gender := "All", temporal := {}, lines_of_therapy := ⟨0, 100⟩ }

/-- The result score_patient computes on a trivial profile and the
criteria text "x". -/
def c2Result : ScoreResult :=
  (scorePatient [] none {} "x" none none).getD (compileResult 0 true [] emptyParsed)

/-- Metadata with both DB age bounds set, for the witness. -/
def c4Meta : TrialMetadata := { min_age_years := some 18, max_age_years := some 65 }

/-- The one-key synonym dictionary of the disjointness counterexample. -/
def c5syn : Syn := [("NSCLC", ["NSCLC"])]

/-- The parse of the counterexample text, for the witness. -/
def c5pc : ParsedCriteria :=
  (parse c5syn "nsclc. exclusion criteria: nsclc").getD emptyParsed

/-- The profile and cached criteria of the equality-operator bug. -/
def c7Profile : PatientProfile := { labs := [("Hemoglobin", some 10)] }

/-- A trial whose only lab rule is Hemoglobin = 10 (the parser emits
operator "=" for the phrasing "equals"). -/
def c7Parsed : ParsedCriteria :=
  { conditions := [], biomarkers := [], ecog := [], labs := [("Hemoglobin", ⟨"=", 10, ""⟩)],
    exclusions := [], age_range := (0, 100), gender := "All", temporal := {},
    lines_of_therapy := ⟨0, 100⟩ }

/-- Metadata caching the equality-rule criteria. -/
def c7Meta : TrialMetadata := { parsed_criteria := some c7Parsed }

/-- The single hit of the rerank witness. -/
def c9Hit : Hit := { nct_id := "T1", score := some 2 }

/-- Its evaluated form with weight 0: no criteria text, so the verdict
is undetermined and the blended score is the normalized retrieval 1. -/
def c9Out : HitOut :=
  { nct_id := "T1", score := 1, retrieval_score := 1, feasibility_score := none,
    feasibility_reasons := ["No eligibility criteria available"], is_feasible := none }


/-! ## Supporting lemmas

Every scoring rule only ever adds points (or leaves the score alone
and clears the feasibility flag), so the accumulated raw score never
drops below its input; this is the substance of the 0 ≤ score bound. -/

theorem conditionStep_score_le (pc ati : List String) (umls : Option Umls)
    (pcuis : Option (List String)) (tcuis : List String) (st : SState) :
    st.score ≤ (conditionStep pc ati umls pcuis tcuis st).score := by
  dsimp only [conditionStep]
  repeat' split
  all_goals simp

theorem biomarkerStep_score_le (pb tb : List String) (st : SState) :
    st.score ≤ (biomarkerStep pb tb st).score := by
  dsimp only [biomarkerStep]
  split <;> simp

theorem ecogStep_score_le (te : List ℤ) (pe : Option ℤ) (st : SState) :
    st.score ≤ (ecogStep te pe st).score := by
  dsimp only [ecogStep]
  repeat' split
  all_goals simp

theorem labLoop_pts_nonneg (plabs : List (String × Option ℚ)) (tlabs : List (String × LabRule)) :
    0 ≤ (labLoop plabs tlabs).1 := by
  induction tlabs with
  | nil => simp [labLoop]
  | cons hd tl ih =>
    dsimp only [labLoop]
    repeat' split
    all_goals simp_all
    all_goals omega

theorem labStep_score_le (plabs : List (String × Option ℚ)) (tlabs : List (String × LabRule))
    (st : SState) : st.score ≤ (labStep plabs tlabs st).score := by
  have h := labLoop_pts_nonneg plabs tlabs
  dsimp only [labStep]
  repeat' split
  all_goals simp_all

theorem ageStep_score_le (ar : ℚ × ℚ) (pa : Option ℚ) (st : SState) :
    st.score ≤ (ageStep ar pa st).score := by
  dsimp only [ageStep]
  repeat' split
  all_goals simp

theorem minLinesCheck_score_le (tl : String) (p : ℤ) (st : SState) :
    st.score ≤ (minLinesCheck tl p st).score := by
  dsimp only [minLinesCheck]
  repeat' split
  all_goals simp

theorem maxLinesCheck_score_le (tl : String) (p : ℤ) (st : SState) :
    st.score ≤ (maxLinesCheck tl p st).score := by
  dsimp only [maxLinesCheck]
  repeat' split
  all_goals simp

theorem priorLinesTextStep_score_le (text : String) (pl : Option ℤ) (st : SState) :
    st.score ≤ (priorLinesTextStep text pl st).score := by
  dsimp only [priorLinesTextStep]
  split
  · exact le_refl _
  · exact le_trans (minLinesCheck_score_le _ _ _) (maxLinesCheck_score_le _ _ _)

theorem genderStep_score_le (tg : String) (pg : Option String) (st : SState) :
    st.score ≤ (genderStep tg pg st).score := by
  dsimp only [genderStep]
  repeat' split
  all_goals simp

theorem washoutStep_score_le (pw tw : Option ℚ) (st : SState) :
    st.score ≤ (washoutStep pw tw st).score := by
  dsimp only [washoutStep]
  repeat' split
  all_goals simp

theorem linesStep_score_le (pl : Option ℤ) (rule : LinesRule) (st : SState) :
    st.score ≤ (linesStep pl rule st).score := by
  dsimp only [linesStep]
  repeat' split
  all_goals simp

theorem scorePipeline_score_nonneg (umls : Option Umls) (profile : PatientProfile)
    (text : String) (pcuis : Option (List String)) (dbc dbq : List String)
    (td : ParsedCriteria) :
    0 ≤ (scorePipeline umls profile text pcuis dbc dbq td).score := by
  unfold scorePipeline
  refine le_trans ?_ (linesStep_score_le _ _ _)
  refine le_trans ?_ (washoutStep_score_le _ _ _)
  refine le_trans ?_ (genderStep_score_le _ _ _)
  refine le_trans ?_ (priorLinesTextStep_score_le _ _ _)
  refine le_trans ?_ (ageStep_score_le _ _ _)
  refine le_trans ?_ (labStep_score_le _ _ _)
  refine le_trans ?_ (ecogStep_score_le _ _ _)
  refine le_trans ?_ (biomarkerStep_score_le _ _ _)
  exact conditionStep_score_le _ _ _ _ _ _

/-- The compiled result: score clamped into [0, 100] given a
non-negative raw score, 0 when infeasible. -/
theorem compileResult_bounds (s : ℤ) (f : Bool) (rs : List String) (td : ParsedCriteria)
    (hs : 0 ≤ s) :
    0 ≤ (compileResult s f rs td).score ∧ (compileResult s f rs td).score ≤ 100 ∧
      ((compileResult s f rs td).is_feasible = false → (compileResult s f rs td).score = 0) := by
  unfold compileResult
  cases f
  · simp
  · simp
    omega

/-- The metadata override touches only the age bounds and the gender. -/
theorem applyOverride_exclusions (td : ParsedCriteria) (m : TrialMetadata) :
    (applyOverride td m).exclusions = td.exclusions := by
  dsimp only [applyOverride]
  repeat' split
  all_goals rfl

/-- The clamp of _extract_age bounds both ends by 120 but restores the
order min ≤ max only when the minimum is at most the default 100. -/
theorem ageClamp_bounds (mn mx : Option ℕ) :
    (ageClamp mn mx).1 ≤ 120 ∧ (ageClamp mn mx).2 ≤ 120 ∧
      ((ageClamp mn mx).1 ≤ 100 → (ageClamp mn mx).1 ≤ (ageClamp mn mx).2) := by
  dsimp only [ageClamp]
  repeat' split
  all_goals simp_all

theorem mem_insertAscNat (x z : ℕ) (l : List ℕ) :
    z ∈ insertAscNat x l ↔ z = x ∨ z ∈ l := by
  induction l with
  | nil => simp [insertAscNat]
  | cons y ys ih =>
    dsimp only [insertAscNat]
    split
    · simp only [List.mem_cons]
    · split
      · next hlt heq =>
        subst heq
        simp only [List.mem_cons]
        tauto
      · simp only [List.mem_cons, ih]
        tauto

theorem mem_foldl_insertAscNat (xs : List ℕ) (s : List ℕ) (z : ℕ)
    (h : z ∈ xs.foldl (fun s x => insertAscNat x s) s) : z ∈ xs ∨ z ∈ s := by
  induction xs generalizing s with
  | nil =>
    rw [List.foldl_nil] at h
    exact Or.inr h
  | cons x xs ih =>
    rw [List.foldl_cons] at h
    rcases ih (insertAscNat x s) h with hx | hs
    · exact Or.inl (List.mem_cons_of_mem _ hx)
    · rcases (mem_insertAscNat x z s).mp hs with hz | hz
      · exact Or.inl (hz ▸ List.mem_cons_self _ _)
      · exact Or.inr hz

/-- Every element added by insertRange a b lies in [a, b]. -/
theorem mem_insertRange (a b : ℕ) (s : List ℕ) (z : ℕ)
    (h : z ∈ insertRange a b s) : z ≤ b ∨ z ∈ s := by
  rcases mem_foldl_insertAscNat _ _ _ h with hx | hs
  · left
    rcases List.mem_map.mp hx with ⟨i, hi, rfl⟩
    have := List.mem_range.mp hi
    omega
  · exact Or.inr hs

/-- Both guarded ECOG patterns only contribute scores at most 5. -/
theorem ecogPrimary_le5 (t : String) (z : ℕ) (hz : z ∈ ecogPrimary t) : z ≤ 5 := by
  have base : ∀ w : ℕ, w ∈ (match reSearch ecogRangeRE t with
      | some (_, caps) =>
        let a := natOfDigits ((capGet caps 1).getD [])
        let b := natOfDigits ((capGet caps 2).getD [])
        if a ≤ b ∧ b ≤ 5 then insertRange a b [] else []
      | none => ([] : List ℕ)) → w ≤ 5 := by
    intro w hw
    split at hw
    · dsimp only at hw
      split at hw
      · next hab =>
        rcases mem_insertRange _ _ _ _ hw with hb | he
        · omega
        · simp at he
      · simp at hw
    · simp at hw
  dsimp only [ecogPrimary] at hz
  split at hz
  · split at hz
    · next hlim =>
      rcases mem_insertRange _ _ _ _ hz with hb | hs
      · omega
      · exact base z hs
    · exact base z hz
  · exact base z hz

/-! ## The claims -/

/-- C1 (counterexample): the claimed exact reason list
["Hard Exclusion: Pregnancy"] is not what score_patient returns on the
spec's hard-exclusion scenario. -/
theorem claim1_counterexample :
    (scorePatient [] none c1Profile "x" (some c1Meta) none).map ScoreResult.reasons ≠
      some ["Hard Exclusion: Pregnancy"] ∧
    (scorePatient [] none c1Profile "x" (some c1Meta) none).map ScoreResult.reasons =
      some [" Hard Exclusion: Patient has \x27Pregnancy\x27"] := by
  decide

/-- C1 (amended): when some parsed exclusion flag is among the
patient's conditions ∪ history, score_patient short-circuits with
score 0, is_feasible false and the single reason
" Hard Exclusion: Patient has '(flag)'" naming the first such flag in
exclusion-list order. -/
theorem claim1_hard_exclusion (syn : Syn) (umls : Option Umls) (profile : PatientProfile)
    (text : String) (m : TrialMetadata) (cuis : Option (List String)) (pc : ParsedCriteria)
    (flag : String) (hm : m.parsed_criteria = some pc)
    (hf : pc.exclusions.find?
      (fun e => (profile.conditions ++ profile.history).contains e) = some flag) :
    scorePatient syn umls profile text (some m) cuis =
      some { score := 0, is_feasible := false, reasons := [hardExclusionMsg flag],
             parsed_criteria := applyOverride pc m } := by
  have he : (applyOverride pc m).exclusions.find?
      (fun e => (profile.conditions ++ profile.history).contains e) = some flag := by
    rw [applyOverride_exclusions]
    exact hf
  dsimp only [scorePatient]
  rw [hm]
  dsimp only
  rw [he]
  dsimp only [compileResult]
  rfl

/-- C1 (witness): the amended short-circuit at the Pregnancy scenario. -/
theorem claim1_witness :
    scorePatient [] none c1Profile "x" (some c1Meta) none =
      some { score := 0, is_feasible := false, reasons := [hardExclusionMsg "Pregnancy"],
             parsed_criteria := applyOverride c1Parsed c1Meta } :=
  claim1_hard_exclusion [] none c1Profile "x" c1Meta none c1Parsed "Pregnancy" rfl (by decide)

/-- C2: whenever score_patient returns a result (for any profile,
criteria text, metadata, linker and precomputed CUIs), its score lies
in [0, 100], and an infeasible result carries score 0. -/
theorem claim2_score_bounds (syn : Syn) (umls : Option Umls) (profile : PatientProfile)
    (text : String) (meta : Option TrialMetadata) (cuis : Option (List String))
    (r : ScoreResult) (h : scorePatient syn umls profile text meta cuis = some r) :
    0 ≤ r.score ∧ r.score ≤ 100 ∧ (r.is_feasible = false → r.score = 0) := by
  dsimp only [scorePatient] at h
  split at h
  · exact absurd h (by simp)
  · split at h
    · rw [Option.some.injEq] at h
      subst h
      exact compileResult_bounds 0 false _ _ le_rfl
    · rw [Option.some.injEq] at h
      subst h
      exact compileResult_bounds _ _ _ _ (scorePipeline_score_nonneg _ _ _ _ _ _ _)

/-- C2 (witness): the bounds at a concrete run. -/
theorem claim2_witness :
    0 ≤ c2Result.score ∧ c2Result.score ≤ 100 ∧
      (c2Result.is_feasible = false → c2Result.score = 0) :=
  claim2_score_bounds [] none {} "x" none none c2Result rfl

/-- C4 (counterexample): on the text "age 110 years and up to 50 years"
the parser returns age_range (110, 100), violating lo ≤ hi: the clamp
"if min > max then max := 100" fails to restore the order when the
parsed minimum exceeds 100. -/
theorem claim4_counterexample :
    (parse [] "age 110 years and up to 50 years").map ParsedCriteria.age_range =
      some ((110 : ℚ), (100 : ℚ)) ∧
    ¬ ((110 : ℚ) ≤ (100 : ℚ)) := by
  constructor
  · have hx : extractAge (strLower "age 110 years and up to 50 years") = (110, 100) := by
      decide
    simp [parse, hx]
  · norm_num

/-- C4 (amended): the parser clamps both bounds into [0, 120] and
guarantees lo ≤ hi whenever lo ≤ 100 (the order can fail for parsed
minima in (100, 120]); the scorer's structured-metadata override
replaces the bounds with the DB values outright, so after it lo ≤ hi
holds whenever min_age_years ≤ max_age_years, with no re-clamping. -/
theorem claim4_age_range_amended :
    (∀ t : String, (extractAge t).1 ≤ 120 ∧ (extractAge t).2 ≤ 120 ∧
      ((extractAge t).1 ≤ 100 → (extractAge t).1 ≤ (extractAge t).2)) ∧
    (∀ (td : ParsedCriteria) (m : TrialMetadata) (a b : ℚ),
      m.min_age_years = some a → m.max_age_years = some b → a ≤ b →
      (applyOverride td m).age_range.1 ≤ (applyOverride td m).age_range.2) := by
  constructor
  · intro t
    exact ageClamp_bounds _ _
  · intro td m a b h1 h2 hab
    dsimp only [applyOverride]
    rw [h1, h2]
    dsimp only
    repeat' split
    all_goals simpa using hab

/-- C4 (witness): the amended invariant at a concrete text and at a
concrete DB override. -/
theorem claim4_witness :
    ((extractAge "at least 18 years").1 ≤ 120 ∧ (extractAge "at least 18 years").2 ≤ 120 ∧
      ((extractAge "at least 18 years").1 ≤ 100 →
        (extractAge "at least 18 years").1 ≤ (extractAge "at least 18 years").2)) ∧
    (applyOverride emptyParsed c4Meta).age_range.1 ≤ (applyOverride emptyParsed c4Meta).age_range.2 :=
  ⟨claim4_age_range_amended.1 "at least 18 years",
   claim4_age_range_amended.2 emptyParsed c4Meta 18 65 rfl rfl (by norm_num)⟩

/-- C5 (counterexample): on "nsclc. exclusion criteria: nsclc" the key
NSCLC is matched in the inclusion half (so it is a parsed condition)
and also in the exclusion half (so it is an exclusion): the two sets
are not disjoint; parse has no disjointness filter. -/
theorem claim5_counterexample :
    (parse c5syn "nsclc. exclusion criteria: nsclc").map ParsedCriteria.conditions =
      some ["NSCLC"] ∧
    (parse c5syn "nsclc. exclusion criteria: nsclc").map ParsedCriteria.exclusions =
      some ["NSCLC"] := by
  decide

/-- C5 (amended): parsed conditions are exactly the condition keys
matched in the inclusion half, and parsed exclusions are exactly the
hard-coded flags found in the whole text plus the condition keys
matched in the exclusion half; no filtering makes them disjoint, so a
key whose surface form appears in both halves lands in both sets. -/
theorem claim5_condition_exclusion_sources (syn : Syn) (t : String) (pc : ParsedCriteria)
    (k : String) (h : parse syn t = some pc) :
    (k ∈ pc.conditions ↔ k ∈ extractConditions syn (inclusionHalf (strLower t))) ∧
    (k ∈ pc.exclusions ↔
      k ∈ extractExclusions (strLower t) ∨
        k ∈ extractConditions syn (exclusionHalf (strLower t))) := by
  dsimp only [parse] at h
  split at h
  · exact absurd h (by simp)
  · rw [Option.some.injEq] at h
    subst h
    exact ⟨Iff.rfl, List.mem_append⟩

/-- C5 (witness): the amended source characterization at the concrete
two-half text. -/
theorem claim5_witness :
    ("NSCLC" ∈ c5pc.conditions ↔
      "NSCLC" ∈ extractConditions c5syn
        (inclusionHalf (strLower "nsclc. exclusion criteria: nsclc"))) ∧
    ("NSCLC" ∈ c5pc.exclusions ↔
      "NSCLC" ∈ extractExclusions (strLower "nsclc. exclusion criteria: nsclc") ∨
        "NSCLC" ∈ extractConditions c5syn
          (exclusionHalf (strLower "nsclc. exclusion criteria: nsclc"))) :=
  claim5_condition_exclusion_sources c5syn "nsclc. exclusion criteria: nsclc" c5pc "NSCLC" rfl

/-- C6 (counterexample): the fallback "X or Y" ECOG pattern has no ≤ 5
guard: "ecog 7 or 8" parses to ecog_allowed [7, 8], with 7 outside
{0,...,5}. -/
theorem claim6_counterexample :
    (parse [] "ecog 7 or 8").map ParsedCriteria.ecog = some [7, 8] ∧
    ¬ ((7 : ℤ) ≤ 5) := by
  decide

/-- C6 (amended): whenever the guarded patterns (explicit range,
upper-bound inequality) contribute at all, every allowed ECOG score is
at most 5; only the unguarded "X or Y" fallback (which fires when the
guarded patterns found nothing) can produce larger digits. -/
theorem claim6_ecog_amended (t : String) (h : ecogPrimary t ≠ []) :
    ∀ x ∈ extractEcog t, x ≤ 5 := by
  intro x hx
  dsimp only [extractEcog] at hx
  rw [if_neg h] at hx
  exact ecogPrimary_le5 t x hx

/-- C6 (witness): the amended bound on a text where the range pattern
fires. -/
theorem claim6_witness :
    ecogPrimary "ecog performance status 0-1" ≠ [] ∧
    ∀ x ∈ extractEcog "ecog performance status 0-1", x ≤ 5 :=
  ⟨by decide, claim6_ecog_amended "ecog performance status 0-1" (by decide)⟩

/-- C7 (code bug): a lab rule with operator "=" can never pass: the
scorer's inequality dispatch handles only >, >=, <, <=, so a patient
whose Hemoglobin exactly equals the threshold 10 is marked lab-failed
and infeasible (score 0) instead of passing with +5. -/
theorem claim7_eq_operator_bug :
    (scorePatient [] none c7Profile "x" (some c7Meta) none).map
      (fun r => (r.score, r.is_feasible)) = some (0, false) ∧
    labPassed "=" 10 10 = false := by
  decide

/-- C8: when the patient's prior_lines is present, the lines-of-therapy
rule adds exactly 10 points (leaving feasibility unchanged) if the
count lies within the parsed [min, max] interval, and otherwise marks
the trial infeasible (leaving the score unchanged). -/
theorem claim8_lines_of_therapy (p : ℤ) (rule : LinesRule) (st : SState) :
    (rule.lmin ≤ p ∧ p ≤ rule.lmax →
      (linesStep (some p) rule st).score = st.score + 10 ∧
      (linesStep (some p) rule st).feasible = st.feasible) ∧
    (¬ (rule.lmin ≤ p ∧ p ≤ rule.lmax) →
      (linesStep (some p) rule st).score = st.score ∧
      (linesStep (some p) rule st).feasible = false) := by
  dsimp only [linesStep]
  constructor
  · intro hin
    rw [if_pos hin]
    exact ⟨rfl, rfl⟩
  · intro hout
    rw [if_neg hout]
    exact ⟨rfl, rfl⟩

/-- C8 (witness): both directions at concrete counts against the
interval [0, 2]. -/
theorem claim8_witness :
    ((linesStep (some 1) ⟨0, 2⟩ ⟨0, [], true⟩).score = 0 + 10 ∧
      (linesStep (some 1) ⟨0, 2⟩ ⟨0, [], true⟩).feasible = true) ∧
    ((linesStep (some 5) ⟨0, 2⟩ ⟨0, [], true⟩).score = 0 ∧
      (linesStep (some 5) ⟨0, 2⟩ ⟨0, [], true⟩).feasible = false) :=
  ⟨(claim8_lines_of_therapy 1 ⟨0, 2⟩ ⟨0, [], true⟩).1 (by decide),
   (claim8_lines_of_therapy 5 ⟨0, 2⟩ ⟨0, [], true⟩).2 (by decide)⟩

/-- C10: min-max normalization on a non-empty score list whose minimum
equals its maximum assigns every entry 1.0 (not 0.0); likewise the
rerank's local _norm maps every score of such a list to 1. -/
theorem claim10_degenerate_norm (scores : List ℚ) (h1 : scores ≠ [])
    (h2 : pyMin scores = pyMax scores) :
    (∀ p ∈ normalizeScores scores, p.2 = 1) ∧
    (∀ x ∈ scores, normVal (pyMin scores) (pyMax scores) x = 1) := by
  constructor
  · intro p hp
    cases scores with
    | nil => exact absurd rfl h1
    | cons a as =>
      dsimp only [normalizeScores] at hp
      rw [if_pos h2.symm] at hp
      rcases List.mem_map.mp hp with ⟨i, _, rfl⟩
      rfl
  · intro x _
    simp only [normVal, if_pos (le_of_eq h2.symm)]

/-- C10 (witness): the single-candidate list [5]. -/
theorem claim10_witness :
    (∀ p ∈ normalizeScores [(5 : ℚ)], p.2 = 1) ∧
    (∀ x ∈ [(5 : ℚ)], normVal (pyMin [(5 : ℚ)]) (pyMax [(5 : ℚ)]) x = 1) :=
  claim10_degenerate_norm [5] (by simp) rfl

/-- C3: Reciprocal Rank Fusion with k_rrf 60 over lexical ranks
[A,B,C,D] and dense ranks [C,A,E] assigns exactly the claimed five
scores (each id sums 1/(60 + rank) over the lists containing it, ranks
starting at 1), these satisfy the strict chain A > C > B > E > D, and
stable descending sorting by score therefore yields A, C, B, E, D. -/
theorem claim3_rrf_fusion :
    computeRrf [["A", "B", "C", "D"], ["C", "A", "E"]] 60 =
      [("A", 1/61 + 1/62), ("B", 1/62), ("C", 1/61 + 1/63), ("D", 1/64), ("E", 1/63)] ∧
    ((1 : ℚ)/61 + 1/62 > 1/61 + 1/63 ∧ (1 : ℚ)/61 + 1/63 > 1/62 ∧
      (1 : ℚ)/62 > 1/63 ∧ (1 : ℚ)/63 > 1/64) ∧
    (sortDescBy Prod.snd (computeRrf [["A", "B", "C", "D"], ["C", "A", "E"]] 60)).map
      Prod.fst = ["A", "C", "B", "E", "D"] := by
  have h1 : ("A" : String) ≠ "E" := by decide
  have h2 : ("B" : String) ≠ "C" := by decide
  have h3 : ("C" : String) ≠ "D" := by decide
  have h4 : ("B" : String) ≠ "E" := by decide
  have h5 : ("C" : String) ≠ "E" := by decide
  have h6 : ("D" : String) ≠ "E" := by decide
  refine ⟨?_, by norm_num, ?_⟩
  · norm_num [computeRrf, rrfAdd, List.enum, List.enumFrom, h1, h2, h3, h4, h5, h6]
  · norm_num [computeRrf, rrfAdd, List.enum, List.enumFrom, h1, h2, h3, h4, h5, h6,
      sortDescBy, insDesc]

/-! Stable-sort lemmas for the rerank ordering claim. -/

theorem mem_insDesc {α : Type} (key : α → ℚ) (x : α) (l : List α) (y : α) :
    y ∈ insDesc key x l ↔ y = x ∨ y ∈ l := by
  induction l with
  | nil => simp [insDesc]
  | cons a as ih =>
    dsimp only [insDesc]
    split
    · simp only [List.mem_cons]
    · simp only [List.mem_cons, ih]
      tauto

theorem mem_sortDescBy {α : Type} (key : α → ℚ) (l : List α) (y : α) :
    y ∈ sortDescBy key l ↔ y ∈ l := by
  induction l with
  | nil => simp [sortDescBy]
  | cons a as ih =>
    dsimp only [sortDescBy]
    rw [mem_insDesc, ih, List.mem_cons]

theorem insDesc_congr {α : Type} (k1 k2 : α → ℚ) (x : α) (l : List α)
    (h : ∀ a ∈ l, (k1 a ≤ k1 x ↔ k2 a ≤ k2 x)) :
    insDesc k1 x l = insDesc k2 x l := by
  induction l with
  | nil => rfl
  | cons a as ih =>
    dsimp only [insDesc]
    by_cases hc : k1 a ≤ k1 x
    · rw [if_pos hc, if_pos ((h a (List.mem_cons_self a as)).mp hc)]
    · rw [if_neg hc, if_neg (fun hc2 => hc ((h a (List.mem_cons_self a as)).mpr hc2)),
        ih (fun b hb => h b (List.mem_cons_of_mem a hb))]

theorem sortDescBy_congr {α : Type} (k1 k2 : α → ℚ) (l : List α)
    (h : ∀ a ∈ l, ∀ b ∈ l, (k1 a ≤ k1 b ↔ k2 a ≤ k2 b)) :
    sortDescBy k1 l = sortDescBy k2 l := by
  induction l with
  | nil => rfl
  | cons a as ih =>
    dsimp only [sortDescBy]
    rw [ih (fun p hp q hq => h p (List.mem_cons_of_mem a hp) q (List.mem_cons_of_mem a hq))]
    refine insDesc_congr k1 k2 a (sortDescBy k2 as) (fun b hb => ?_)
    have hb' : b ∈ as := (mem_sortDescBy k2 as b).mp hb
    exact h b (List.mem_cons_of_mem a hb') a (List.mem_cons_self a as)

theorem insDesc_map {α β : Type} (key : β → ℚ) (f : α → β) (x : α) (l : List α) :
    insDesc key (f x) (l.map f) = (insDesc (fun a => key (f a)) x l).map f := by
  induction l with
  | nil => rfl
  | cons a as ih =>
    dsimp only [List.map_cons, insDesc]
    by_cases hc : key (f a) ≤ key (f x)
    · rw [if_pos hc, if_pos hc]
      rfl
    · rw [if_neg hc, if_neg hc, List.map_cons, ih]

theorem sortDescBy_map {α β : Type} (key : β → ℚ) (f : α → β) (l : List α) :
    sortDescBy key (l.map f) = (sortDescBy (fun a => key (f a)) l).map f := by
  induction l with
  | nil => rfl
  | cons a as ih =>
    dsimp only [List.map_cons, sortDescBy]
    rw [ih, insDesc_map]

theorem foldl_min_le_acc (l : List ℚ) (acc : ℚ) : l.foldl min acc ≤ acc := by
  induction l generalizing acc with
  | nil => simp
  | cons a as ih => exact le_trans (ih (min acc a)) (min_le_left _ _)

theorem foldl_min_le_mem (l : List ℚ) (acc x : ℚ) (hx : x ∈ l) : l.foldl min acc ≤ x := by
  induction l generalizing acc with
  | nil => cases hx
  | cons a as ih =>
    rcases List.mem_cons.mp hx with rfl | hm
    · exact le_trans (foldl_min_le_acc as (min acc x)) (min_le_right _ _)
    · exact ih (min acc a) hm

theorem pyMin_le (l : List ℚ) (x : ℚ) (hx : x ∈ l) : pyMin l ≤ x := by
  cases l with
  | nil => cases hx
  | cons a as =>
    dsimp only [pyMin]
    rcases List.mem_cons.mp hx with rfl | hm
    · exact foldl_min_le_acc as x
    · exact foldl_min_le_mem as a x hm

theorem acc_le_foldl_max (l : List ℚ) (acc : ℚ) : acc ≤ l.foldl max acc := by
  induction l generalizing acc with
  | nil => simp
  | cons a as ih => exact le_trans (le_max_left _ _) (ih (max acc a))

theorem mem_le_foldl_max (l : List ℚ) (acc x : ℚ) (hx : x ∈ l) : x ≤ l.foldl max acc := by
  induction l generalizing acc with
  | nil => cases hx
  | cons a as ih =>
    rcases List.mem_cons.mp hx with rfl | hm
    · exact le_trans (le_max_right _ _) (acc_le_foldl_max as (max acc x))
    · exact ih (max acc a) hm

theorem le_pyMax (l : List ℚ) (x : ℚ) (hx : x ∈ l) : x ≤ pyMax l := by
  cases l with
  | nil => cases hx
  | cons a as =>
    dsimp only [pyMax]
    rcases List.mem_cons.mp hx with rfl | hm
    · exact acc_le_foldl_max as x
    · exact mem_le_foldl_max as a x hm

/-- Min-max rescaling is monotone on the rescaled range: for values
between vmin and vmax, the normalized comparison agrees with the raw
comparison (in the degenerate branch all values coincide). -/
theorem normVal_le_iff (vmin vmax x y : ℚ) (hx1 : vmin ≤ x) (hx2 : x ≤ vmax)
    (hy1 : vmin ≤ y) (hy2 : y ≤ vmax) :
    (normVal vmin vmax x ≤ normVal vmin vmax y ↔ x ≤ y) := by
  dsimp only [normVal]
  by_cases hc : vmax ≤ vmin
  · rw [if_pos hc, if_pos hc]
    have hxy : x = y := by linarith
    subst hxy
    simp
  · rw [if_neg hc, if_neg hc]
    have hp : 0 < vmax - vmin := by linarith [lt_of_not_le hc]
    rw [div_le_div_iff_of_pos_right hp, sub_le_sub_iff_right]

/-- evalHit never changes the trial id. -/
theorem evalHit_nct_id (syn : Syn) (umls : Option Umls) (criteria : List (String × String))
    (profile : PatientProfile) (pcuis : Option (List String)) (vmin vmax w : ℚ) (h : Hit) :
    (evalHit syn umls criteria profile pcuis vmin vmax w h).nct_id = h.nct_id := by
  dsimp only [evalHit]
  repeat' split
  all_goals rfl

/-- The feasibility verdict recorded by evalHit is hitVerdict. -/
theorem evalHit_is_feasible (syn : Syn) (umls : Option Umls)
    (criteria : List (String × String)) (profile : PatientProfile)
    (pcuis : Option (List String)) (vmin vmax w : ℚ) (h : Hit) :
    (evalHit syn umls criteria profile pcuis vmin vmax w h).is_feasible =
      hitVerdict syn umls criteria profile pcuis h := by
  dsimp only [evalHit, hitVerdict]
  repeat' split
  all_goals simp_all

/-- With feasibility_weight 0 the blended score is exactly the
normalized retrieval score, whatever the feasibility outcome. -/
theorem evalHit_score_zero (syn : Syn) (umls : Option Umls)
    (criteria : List (String × String)) (profile : PatientProfile)
    (pcuis : Option (List String)) (vmin vmax : ℚ) (h : Hit) :
    (evalHit syn umls criteria profile pcuis vmin vmax 0 h).score =
      normVal vmin vmax (rawScore h) := by
  dsimp only [evalHit]
  repeat' split
  all_goals ring

/-- C9: with feasibility_weight 0, the rerank output is exactly the
retrieval ordering (stable descending sort of the hits by raw
retrieval score) restricted to the hits whose feasibility verdict is
not an explicit false: infeasible hits are dropped and the relative
order of the rest is untouched. -/
theorem claim9_weight_zero_order (syn : Syn) (umls : Option Umls) (hits : List Hit)
    (criteria : List (String × String)) (profile : PatientProfile) (out : List HitOut)
    (h : applyRerank syn umls hits criteria profile 0 = some out) :
    out.map HitOut.nct_id =
      ((sortDescBy rawScore hits).filter
        (fun hh => hitVerdict syn umls criteria profile (rerankCuis umls profile) hh
          ≠ some false)).map Hit.nct_id := by
  cases hits with
  | nil =>
    dsimp only [applyRerank] at h
    rw [Option.some.injEq] at h
    subst h
    rfl
  | cons a as =>
    dsimp only [applyRerank] at h
    rw [if_pos (by norm_num)] at h
    rw [Option.some.injEq] at h
    subst h
    have hsort : sortDescBy HitOut.score ((a :: as).map
        (evalHit syn umls criteria profile (rerankCuis umls profile)
          (pyMin ((a :: as).map rawScore)) (pyMax ((a :: as).map rawScore)) 0)) =
        (sortDescBy rawScore (a :: as)).map
          (evalHit syn umls criteria profile (rerankCuis umls profile)
            (pyMin ((a :: as).map rawScore)) (pyMax ((a :: as).map rawScore)) 0) := by
      rw [sortDescBy_map]
      refine congrArg (List.map _) ?_
      have hkey : (fun x => HitOut.score (evalHit syn umls criteria profile
          (rerankCuis umls profile) (pyMin ((a :: as).map rawScore))
          (pyMax ((a :: as).map rawScore)) 0 x)) =
          fun x => normVal (pyMin ((a :: as).map rawScore)) (pyMax ((a :: as).map rawScore))
            (rawScore x) :=
        funext (fun x => evalHit_score_zero _ _ _ _ _ _ _ x)
      rw [hkey]
      refine sortDescBy_congr _ _ _ (fun p hp q hq => ?_)
      exact normVal_le_iff _ _ _ _
        (pyMin_le _ _ (List.mem_map_of_mem rawScore hp))
        (le_pyMax _ _ (List.mem_map_of_mem rawScore hp))
        (pyMin_le _ _ (List.mem_map_of_mem rawScore hq))
        (le_pyMax _ _ (List.mem_map_of_mem rawScore hq))
    rw [hsort, List.filter_map, List.map_map]
    rw [List.filter_congr (fun x _ => by
      simp only [Function.comp_apply, evalHit_is_feasible] : ∀ x ∈ sortDescBy rawScore (a :: as),
        _ = (fun hh => decide (hitVerdict syn umls criteria profile
          (rerankCuis umls profile) hh ≠ some false)) x)]
    exact List.map_congr_left (fun x _ => evalHit_nct_id _ _ _ _ _ _ _ _ x)

/-- C9 (witness): the ordering identity at a concrete single-hit
candidate set. -/
theorem claim9_witness :
    [c9Out].map HitOut.nct_id =
      ((sortDescBy rawScore [c9Hit]).filter
        (fun hh => hitVerdict [] none [] {} (rerankCuis none {}) hh ≠ some false)).map
        Hit.nct_id :=
  claim9_weight_zero_order [] none [c9Hit] [] {} [c9Out] (by
    have hns : ¬ (none = some false) := by decide
    norm_num [applyRerank, evalHit, normVal, rawScore, pyMin, pyMax, sortDescBy, insDesc,
      rerankCuis, c9Hit, c9Out, hns])

end CTSE
